import Mathlib

/-!
Shallow embedding of the toy browser engine (markup parser, stylesheet parser,
selector matcher / cascade resolver, render-tree builder) found under
`src/parser/src`, together with theorems settling the specification claims.

Character streams are modelled as `List Char`; fallible code (Rust `panic!` /
`unwrap`) is modelled with `Option` / `Except`; the Rust `f32` numeric literal
parse is modelled over `ℚ` (the stylesheet grammar only admits digit/dot
strings, so values are exact decimals); unbounded Rust `loop`s are given an
explicit fuel parameter.
-/

namespace ToyBrowser

/-- HTML tag names, from `dom/prelude.rs` (`ElementTagName`). -/
inductive ElementTagName where
  | Html | Main | Div | Head | Meta | Body | Title | Script | Style | Article
  | P | H1 | H2 | H3 | A
  | Other (s : String)
deriving DecidableEq

/-- HTML attribute keys, from `dom/prelude.rs` (`NodeKey`). -/
inductive NodeKey where
  | Id | Class | Href
  | Other (s : String)
deriving DecidableEq

mutual
/-- HTML node, from `dom/prelude.rs` (`Node`). -/
inductive Node where
  | Text (s : String)
  | Element (e : Element)
  | Comment (s : String)
  | EndTag

/-- HTML element, from `dom/prelude.rs` (`Element`).  The `BTreeMap`
attribute map (unique keys) is modelled as an association list. -/
inductive Element where
  | mk (tag_name : ElementTagName) (attributes : List (NodeKey × String))
      (children : List Node)
end

/-- Accessor for the `tag_name` field of `Element`. -/
def Element.tag_name : Element → ElementTagName
  | .mk t _ _ => t

/-- Accessor for the `attributes` field of `Element`. -/
def Element.attributes : Element → List (NodeKey × String)
  | .mk _ a _ => a

/-- Accessor for the `children` field of `Element`. -/
def Element.children : Element → List Node
  | .mk _ _ c => c

/-- `Element::get_value_by_name` (`dom/mod.rs`): first attribute entry whose
key equals `node_key`. -/
def Element.get_value_by_name (e : Element) (node_key : NodeKey) : Option String :=
  (e.attributes.find? (fun p => decide (p.1 = node_key))).map (·.2)

/-- `Element::get_id` (`dom/mod.rs`). -/
def Element.get_id (e : Element) : Option String :=
  e.get_value_by_name NodeKey.Id

/-- `Element::get_classes` (`dom/mod.rs`). -/
def Element.get_classes (e : Element) : Option String :=
  e.get_value_by_name NodeKey.Class

/-- CSS selector, from `cssom/prelude.rs` (`Selector`). -/
inductive Selector where
  | Tag (t : ElementTagName)
  | Class (left : Option Selector) (name : String)
  | Id (left : Option Selector) (name : String)
  | Child (l r : Selector)
  | Adjacent (l r : Selector)

/-- `Selector::matches` (`cssom/mod.rs`): an absent `class`/`id` attribute is
`unwrap_or_default`-ed to the empty string; the `Child`/`Adjacent` arms fall
into the catch-all `_ => false`. -/
def Selector.matches : Selector → Element → Bool
  | .Tag tag_name, element => decide (tag_name = element.tag_name)
  | .Class (some selector) class_name, element =>
      selector.matches element && decide (class_name = element.get_classes.getD "")
  | .Class none class_name, element =>
      decide (class_name = element.get_classes.getD "")
  | .Id (some selector) id, element =>
      selector.matches element && decide (id = element.get_id.getD "")
  | .Id none id, element =>
      decide (id = element.get_id.getD "")
  | _, _ => false

/-- CSS length unit, from `cssom/prelude.rs` (`Unit`). -/
inductive Unit where
  | Em | Ex | Ch | Rem | Vh | Vw | Vmin | Vmax | Px | Mm | Q | Cm | In | Pt | Pc | Pct
deriving DecidableEq

/-- CSS length, from `cssom/prelude.rs` (`Length`); the `f32` payload is an
exact decimal, modelled over `ℚ`. -/
inductive Length where
  | Actual (n : ℚ) (u : Unit)
  | Auto
deriving DecidableEq

/-- CSS display keyword, from `cssom/prelude.rs` (`Display`). -/
inductive Display where
  | None | Block | Inline | InlineBlock | Flex
deriving DecidableEq

/-- CSS color, from `cssom/prelude.rs` (`Color`), `usize` channels. -/
structure Color where
  r : ℕ
  g : ℕ
  b : ℕ
  a : ℕ
deriving DecidableEq

/-- `Color::new` (`cssom/mod.rs`). -/
def Color.new (r g b a : ℕ) : Color := ⟨r, g, b, a⟩

/-- CSS declaration property, from `cssom/prelude.rs` (`DeclarationProperty`). -/
inductive DeclarationProperty where
  | Margin | MarginLeft | MarginRight | MarginTop | MarginBottom
  | Padding | PaddingLeft | PaddingRight | PaddingTop | PaddingBottom
  | Width | Height | Display | Color | BackgroundColor | BorderRadius
  | Other (s : String)
deriving DecidableEq

/-- `From<&str> for DeclarationProperty` (`cssom/prelude.rs`). -/
def DeclarationProperty.from : String → DeclarationProperty
  | "margin" => .Margin
  | "margin-left" => .MarginLeft
  | "margin-right" => .MarginRight
  | "margin-top" => .MarginTop
  | "margin-bottom" => .MarginBottom
  | "padding" => .Padding
  | "padding-left" => .PaddingLeft
  | "padding-right" => .PaddingRight
  | "padding-top" => .PaddingTop
  | "padding-bottom" => .PaddingBottom
  | "width" => .Width
  | "height" => .Height
  | "display" => .Display
  | "color" => .Color
  | "background-color" => .BackgroundColor
  | "border-radius" => .BorderRadius
  | s => .Other s

/-- CSS declaration value.  The crate-level `prelude` module that declares the
variant actually used by `cssom/mod.rs` and `render_tree/mod.rs` is not under
`src/`; per spec §3 the `Length` payload is a single length ("shorthand
properties expand to four per-side declarations, not a vector"), matching the
uses `DeclarationValue::Length(top)` and `lookup_length`. -/
inductive DeclarationValue where
  | Color (c : Color)
  | Length (l : Length)
  | Display (d : Display)
  | Other (s : String)
deriving DecidableEq

/-- CSS declaration, from `cssom/prelude.rs` (`Declaration`). -/
structure Declaration where
  property : DeclarationProperty
  value : DeclarationValue
deriving DecidableEq

/-- `Declaration::new` (`cssom/mod.rs`). -/
def Declaration.new (property : DeclarationProperty) (value : DeclarationValue) :
    Declaration := ⟨property, value⟩

/-- CSS rule, from `cssom/prelude.rs` (`Rule`). -/
structure Rule where
  selectors : List Selector
  declarations : List Declaration

/-- `Rule::new` (`cssom/mod.rs`). -/
def Rule.new (selectors : List Selector) (declarations : List Declaration) : Rule :=
  ⟨selectors, declarations⟩

/-- CSSOM, from `cssom/prelude.rs` (`StyleSheet`). -/
structure StyleSheet where
  rules : List Rule

/-- Modelled from the spec: the crate-level `prelude` module defining
`StyleMap` is missing from `src/` (only its users are present).  Spec §3:
"mapping from property to resolved value, keys unique"; §9: "Enum-keyed style
map built via HashMap::insert overwrite — insertion-order is irrelevant, only
final value per key matters".  Modelled as an association list with unique
keys and overwriting insert. -/
abbrev StyleMap := List (DeclarationProperty × DeclarationValue)

/-- Modelled from the spec: `StyleMap::new`, the empty map. -/
def StyleMap.new : StyleMap := []

/-- Modelled from the spec: `HashMap::insert` overwrite semantics — the new
binding replaces any previous binding of the same key. -/
def StyleMap.insert (m : StyleMap) (k : DeclarationProperty) (v : DeclarationValue) :
    StyleMap :=
  (k, v) :: m.filter (fun p => !(decide (p.1 = k)))

/-- Modelled from the spec: `HashMap::get`, the value bound to `k` if any. -/
def StyleMap.get (m : StyleMap) (k : DeclarationProperty) : Option DeclarationValue :=
  (m.find? (fun p => decide (p.1 = k))).map (·.2)

/-- `StyleSheet::get_styles` (`cssom/mod.rs`): iterate rules in order; for
each rule, if some selector matches (the Rust loop `break`s at the first
matching selector) insert every declaration of the rule, in order, into the
map. -/
def StyleSheet.get_styles (sheet : StyleSheet) (element : Element) : StyleMap :=
  sheet.rules.foldl
    (fun styles rule =>
      if rule.selectors.any (fun selector => selector.matches element) then
        rule.declarations.foldl
          (fun styles declaration =>
            styles.insert declaration.property declaration.value)
          styles
      else styles)
    StyleMap.new

/-- Render-tree node, from `render_tree/prelude.rs` (`RenderObject`). -/
inductive RenderObject where
  | mk (node : Node) (styles : StyleMap) (children : List RenderObject)

/-- Accessor for the `node` field of `RenderObject`. -/
def RenderObject.node : RenderObject → Node
  | .mk n _ _ => n

/-- Accessor for the `styles` field of `RenderObject`. -/
def RenderObject.styles : RenderObject → StyleMap
  | .mk _ s _ => s

/-- Accessor for the `children` field of `RenderObject`. -/
def RenderObject.children : RenderObject → List RenderObject
  | .mk _ _ c => c

mutual
/-- `RenderObject::build` (`render_tree/mod.rs`): `None` for `meta`/`script`
elements and for elements whose resolved `display` is `Display::None`;
otherwise a node whose children are the successful recursive builds of the
element's children, in order.  Non-element nodes get an empty style map and no
children. -/
def RenderObject.build (node : Node) (stylesheet : StyleSheet) : Option RenderObject :=
  match node with
  | .Element (.mk tag_name attributes element_children) =>
      if tag_name = .Meta ∨ tag_name = .Script then none
      else
        let styles := stylesheet.get_styles (.mk tag_name attributes element_children)
        if styles.get .Display = some (.Display .None) then none
        else some (.mk node styles (RenderObject.buildChildren element_children stylesheet))
  | _ => some (.mk node StyleMap.new [])

/-- The `for child in e.children` loop of `RenderObject::build`: keep the
`Some` results in order. -/
def RenderObject.buildChildren (nodes : List Node) (stylesheet : StyleSheet) :
    List RenderObject :=
  match nodes with
  | [] => []
  | child :: rest =>
      match RenderObject.build child stylesheet with
      | some ch => ch :: RenderObject.buildChildren rest stylesheet
      | none => RenderObject.buildChildren rest stylesheet
end

/-- `RenderObject::new` (`render_tree/mod.rs`): `Self::build(node, stylesheet).unwrap()`;
the `unwrap` panic on `None` is modelled as `Except.error`. -/
def RenderObject.new (node : Node) (stylesheet : StyleSheet) :
    Except String RenderObject :=
  match RenderObject.build node stylesheet with
  | some r => .ok r
  | none => .error "called unwrap on a None value"

/-- `From<&str> for ElementTagName` (`dom/prelude.rs`). -/
def ElementTagName.from : String → ElementTagName
  | "html" => .Html
  | "main" => .Main
  | "head" => .Head
  | "meta" => .Meta
  | "title" => .Title
  | "body" => .Body
  | "style" => .Style
  | "script" => .Script
  | "div" => .Div
  | "p" => .P
  | "h1" => .H1
  | "h2" => .H2
  | "h3" => .H3
  | "a" => .A
  | s => .Other s

/-- `From<&str> for Display` (`cssom/mod.rs`). -/
def Display.from : String → Display
  | "none" => .None
  | "block" => .Block
  | "inline" => .Inline
  | "inline-block" => .InlineBlock
  | "flex" => .Flex
  | _ => .Block

/-- `skip_whitespace` (both parsers): drop leading whitespace from the
character cursor. -/
def skip_whitespace (s : List Char) : List Char :=
  s.dropWhile Char.isWhitespace

/-- The character class of `consume_identifier` in both parsers:
`'0'..='9' | 'a'..='z' | 'A'..='Z' | '_' | '-'`. -/
def isIdentChar (c : Char) : Bool :=
  c.isAlphanum || decide (c = '_') || decide (c = '-')

/-- `consume` (both parsers): skip whitespace, take the maximal run
satisfying the condition, skip whitespace again; returns the run and the
remaining cursor. -/
def consume (cond : Char → Bool) (s : List Char) : List Char × List Char :=
  let s1 := skip_whitespace s
  (s1.takeWhile cond, skip_whitespace (s1.dropWhile cond))

/-- The bounded take of `consume_for`: up to `nth` characters, stopping early
when the condition fails (`next_if`). -/
def takeUpTo (cond : Char → Bool) : ℕ → List Char → List Char × List Char
  | 0, s => ([], s)
  | _ + 1, [] => ([], [])
  | n + 1, c :: rest =>
      if cond c then
        let (t, r) := takeUpTo cond n rest
        (c :: t, r)
      else ([], c :: rest)

/-- `consume_for` (both parsers): skip whitespace, take up to `nth`
characters satisfying the condition, skip whitespace again. -/
def consume_for (cond : Char → Bool) (nth : ℕ) (s : List Char) :
    List Char × List Char :=
  let s1 := skip_whitespace s
  let (t, r) := takeUpTo cond nth s1
  (t, skip_whitespace r)

/-- `consume_identifier` (both parsers). -/
def consume_identifier (s : List Char) : String × List Char :=
  let (t, s1) := consume isIdentChar s
  (String.mk t, s1)

/-- `skip_next_ch` (`cssom/mod.rs`): consume one character which must be `ch`;
the panic on anything else is modelled as `none`. -/
def skip_next_ch (ch : Char) : List Char → Option (List Char)
  | c :: rest => if c = ch then some rest else none
  | [] => none

/-- Value of an ASCII hex digit. -/
def hexDigitVal (c : Char) : ℕ :=
  if c.isDigit then c.toNat - '0'.toNat
  else if decide ('a' ≤ c) && decide (c ≤ 'f') then c.toNat - 'a'.toNat + 10
  else c.toNat - 'A'.toNat + 10

/-- The hex-digit character class of `consume_hex`:
`'0'..='9' | 'a'..='f' | 'A'..='F'`. -/
def isHexChar (c : Char) : Bool :=
  c.isDigit || (decide ('a' ≤ c) && decide (c ≤ 'f')) ||
    (decide ('A' ≤ c) && decide (c ≤ 'F'))

/-- `usize::from_str_radix(s, 16)`: fails on the empty string or a non-hex
character, otherwise the base-16 value. -/
def fromStrRadix16 (cs : List Char) : Option ℕ :=
  if cs.isEmpty then none
  else if cs.all isHexChar then
    some (cs.foldl (fun n c => 16 * n + hexDigitVal c) 0)
  else none

/-- Numeric value of a digit string. -/
def natOfDigits (cs : List Char) : ℕ :=
  cs.foldl (fun n c => 10 * n + (c.toNat - '0'.toNat)) 0

/-- `str::parse::<f32>` restricted to the digit/dot strings produced by
`consume_number`: split at the first `.`; accepted iff there is at most one
dot and at least one digit; the value is the exact decimal. -/
def parseDecimal (str : String) : Option ℚ :=
  let cs := str.toList
  let intPart := cs.takeWhile (fun c => !(decide (c = '.')))
  match cs.dropWhile (fun c => !(decide (c = '.'))) with
  | [] =>
      if intPart.isEmpty = false ∧ intPart.all Char.isDigit = true then
        some (natOfDigits intPart)
      else none
  | _ :: fracPart =>
      if fracPart.any (fun c => decide (c = '.')) = false ∧
          (intPart.isEmpty = false ∨ fracPart.isEmpty = false) ∧
          intPart.all Char.isDigit = true ∧ fracPart.all Char.isDigit = true then
        some ((natOfDigits intPart : ℚ) +
          (natOfDigits fracPart : ℚ) / (10 : ℚ) ^ fracPart.length)
      else none

/-- `consume_number` (`cssom/mod.rs`); the `.parse().unwrap()` panic is
modelled as `none`. -/
def consume_number (s : List Char) : Option (ℚ × List Char) :=
  let (t, s1) := consume (fun c => c.isDigit || decide (c = '.')) s
  (parseDecimal (String.mk t)).map (fun q => (q, s1))

/-- `consume_hex` (`cssom/mod.rs`): up to `n` hex digits,
`unwrap_or_default()`-ing a failed radix-16 parse to `0`. -/
def consume_hex (n : ℕ) (s : List Char) : ℕ × List Char :=
  let (t, s1) := consume_for isHexChar n s
  ((fromStrRadix16 t).getD 0, s1)

/-- `StyleSheetParser::parse_declaration_color` (`cssom/mod.rs`): `self.next()`
consumes the `#` (one character after whitespace), then two hex digits each
for r, g, b, then — only if the next raw character is ASCII alphanumeric — two
hex digits for the alpha, else alpha `0`. -/
def parse_declaration_color (property : DeclarationProperty) (s : List Char) :
    Declaration × List Char :=
  let s0 := (skip_whitespace s).drop 1
  let (r, s1) := consume_hex 2 s0
  let (g, s2) := consume_hex 2 s1
  let (b, s3) := consume_hex 2 s2
  match s3.head? with
  | some ch =>
      if ch.isAlphanum then
        let (a, s4) := consume_hex 2 s3
        (Declaration.new property (.Color (Color.new r g b a)), s4)
      else (Declaration.new property (.Color (Color.new r g b 0)), s3)
  | none => (Declaration.new property (.Color (Color.new r g b 0)), s3)

/-- `StyleSheetParser::parse_declaration_actual_length` (`cssom/mod.rs`):
a number followed by a unit identifier; unknown units default to `Px`. -/
def parse_declaration_actual_length (s : List Char) :
    Option (Length × List Char) :=
  match consume_number s with
  | none => none
  | some (length, s1) =>
      let (unit_ident, s2) := consume_identifier s1
      let unit : Unit :=
        match unit_ident with
        | "px" => .Px
        | "em" => .Em
        | _ => .Px
      some (.Actual length unit, s2)

/-- The value-collection `loop` of `parse_declaration_lengths`
(`cssom/mod.rs`): a digit starts an actual length, `;` breaks, any other
character is consumed as an identifier yielding `Length::Auto`, end of input
panics.  `fuel` bounds the unbounded Rust loop. -/
def lengthsLoop : ℕ → List Char → List Length → Option (List Length × List Char)
  | 0, _, _ => none
  | fuel + 1, s, acc =>
      let s1 := skip_whitespace s
      match s1.head? with
      | some c =>
          if c.isDigit then
            match parse_declaration_actual_length s1 with
            | some (len, s2) => lengthsLoop fuel s2 (acc ++ [len])
            | none => none
          else if c = ';' then some (acc, s1)
          else
            let (_, s2) := consume_identifier s1
            lengthsLoop fuel s2 (acc ++ [Length.Auto])
      | none => none

/-- `StyleSheetParser::parse_declaration_lengths` (`cssom/mod.rs`): collect
the values, skip the `;`, then assign sides by arity — 1 value: all sides;
2: `(top, right, top, right)`; 3: `(top, right, bottom, right)`;
4: `(top, right, bottom, left)`; other arities panic. -/
def parse_declaration_lengths (fuel : ℕ) (s : List Char) :
    Option ((Length × Length × Length × Length) × List Char) :=
  match lengthsLoop fuel s [] with
  | none => none
  | some (values, s1) =>
      match skip_next_ch ';' s1 with
      | none => none
      | some s2 =>
          match values with
          | [top] => some ((top, top, top, top), s2)
          | [top, right] => some ((top, right, top, right), s2)
          | [top, right, bottom] => some ((top, right, bottom, right), s2)
          | [top, right, bottom, left] => some ((top, right, bottom, left), s2)
          | _ => none

/-- `StyleSheetParser::parse_declaration_margin` (`cssom/mod.rs`): the four
directional declarations, in the order top, right, bottom, left. -/
def parse_declaration_margin (fuel : ℕ) (s : List Char) :
    Option (List Declaration × List Char) :=
  match parse_declaration_lengths fuel s with
  | none => none
  | some ((top, right, bottom, left), s1) =>
      some ([Declaration.new .MarginTop (.Length top),
             Declaration.new .MarginRight (.Length right),
             Declaration.new .MarginBottom (.Length bottom),
             Declaration.new .MarginLeft (.Length left)], s1)

/-- `StyleSheetParser::parse_declaration_padding` (`cssom/mod.rs`). -/
def parse_declaration_padding (fuel : ℕ) (s : List Char) :
    Option (List Declaration × List Char) :=
  match parse_declaration_lengths fuel s with
  | none => none
  | some ((top, right, bottom, left), s1) =>
      some ([Declaration.new .PaddingTop (.Length top),
             Declaration.new .PaddingRight (.Length right),
             Declaration.new .PaddingBottom (.Length bottom),
             Declaration.new .PaddingLeft (.Length left)], s1)

mutual
/-- `StyleSheetParser::parse_one_selector` (`cssom/mod.rs`): an optional
leading ASCII-alphanumeric identifier becomes a `Tag`, then compound/combinator
parsing continues.  `fuel` bounds the mutual recursion. -/
def parse_one_selector : ℕ → List Char → Option (Selector × List Char)
  | 0, _ => none
  | fuel + 1, s =>
      let s1 := skip_whitespace s
      match s1.head? with
      | some c =>
          if c.isAlphanum then
            let (tag_name, s2) := consume_identifier s1
            parse_class_selector fuel (some (.Tag (ElementTagName.from tag_name))) s2
          else parse_class_selector fuel none s1
      | none => parse_class_selector fuel none s1

/-- `StyleSheetParser::parse_class_selector` (`cssom/mod.rs`): `.`/`#`
compound onto the current left operand; `+`/`>` switch to combinator parsing;
anything else returns the accumulated selector (`unwrap` panic when none). -/
def parse_class_selector : ℕ → Option Selector → List Char →
    Option (Selector × List Char)
  | 0, _, _ => none
  | fuel + 1, left, s =>
      let s1 := skip_whitespace s
      match s1.head? with
      | some '.' =>
          let (class_name, s2) := consume_identifier (s1.drop 1)
          let newLeft :=
            match left with
            | some selector => Selector.Class (some selector) class_name
            | none => Selector.Class none class_name
          parse_sibling_selector fuel (some newLeft) s2
      | some '#' =>
          let (id, s2) := consume_identifier (s1.drop 1)
          let newLeft :=
            match left with
            | some selector => Selector.Id (some selector) id
            | none => Selector.Id none id
          parse_sibling_selector fuel (some newLeft) s2
      | some '+' => parse_sibling_selector fuel left s1
      | some '>' => parse_sibling_selector fuel left s1
      | _ =>
          match left with
          | some selector => some (selector, s1)
          | none => none

/-- `StyleSheetParser::parse_sibling_selector` (`cssom/mod.rs`): peeks the raw
cursor; on `>`/`+` parses the right operand with `parse_one_selector`, wraps in
`Child`/`Adjacent`, and recurses with the new node as the left operand
(panicking if there is no left operand). -/
def parse_sibling_selector : ℕ → Option Selector → List Char →
    Option (Selector × List Char)
  | 0, _, _ => none
  | fuel + 1, left, s =>
      match s.head? with
      | some '>' =>
          match parse_one_selector fuel (s.drop 1) with
          | some (right, s2) =>
              match left with
              | some selector =>
                  parse_sibling_selector fuel (some (.Child selector right)) s2
              | none => none
          | none => none
      | some '+' =>
          match parse_one_selector fuel (s.drop 1) with
          | some (right, s2) =>
              match left with
              | some selector =>
                  parse_sibling_selector fuel (some (.Adjacent selector right)) s2
              | none => none
          | none => none
      | _ =>
          match left with
          | some selector => some (selector, s)
          | none => none
end

/-- `DocumentObjectParser::consume_text` (`dom/mod.rs`): the run up to the
next `<`/`>` (with leading whitespace skipped by `consume`), then
`.trim_end()` (drop trailing whitespace) and `.replace("\n", " ")` (the
pattern is a single character, so this is a character-wise map). -/
def consume_text (s : List Char) : String × List Char :=
  let (t, s1) := consume (fun c => !(decide (c = '<') || decide (c = '>'))) s
  (String.mk (((t.reverse.dropWhile Char.isWhitespace).reverse).map
      (fun c => if c = '\n' then ' ' else c)), s1)

/-- The declarations contributed by the matching rules of a stylesheet, in
stylesheet order (specification vocabulary for stating the cascade result). -/
def matchingDeclarations (sheet : StyleSheet) (element : Element) : List Declaration :=
  (sheet.rules.filter
      (fun rule => rule.selectors.any (fun s => s.matches element))).flatMap
    (·.declarations)

/-- The value of the last declaration of property `p` in a declaration list. -/
def lastValueOf (p : DeclarationProperty) (l : List Declaration) :
    Option DeclarationValue :=
  (l.reverse.find? (fun d => decide (d.property = p))).map (·.value)

/-- The child nodes of a `Node`: an element's children; other nodes have none. -/
def Node.nodeChildren : Node → List Node
  | .Element e => e.children
  | _ => []

/-! ## Lemmas about the style map and the cascade -/

theorem find?_filter_ne (m : StyleMap) (k p : DeclarationProperty) (h : p ≠ k) :
    List.find? (fun q => decide (q.1 = p))
        (m.filter (fun q => !(decide (q.1 = k)))) =
      List.find? (fun q => decide (q.1 = p)) m := by
  induction m with
  | nil => rfl
  | cons q t ih =>
    by_cases hk : q.1 = k
    · have hqp : ¬(q.1 = p) := by rw [hk]; exact fun e => h e.symm
      rw [List.filter_cons_of_neg (by simp [hk]), ih,
        List.find?_cons_of_neg _ (by simp [hqp])]
    · by_cases hp : q.1 = p
      · rw [List.filter_cons_of_pos (by simp [hk]),
          List.find?_cons_of_pos _ (by simp [hp]),
          List.find?_cons_of_pos _ (by simp [hp])]
      · rw [List.filter_cons_of_pos (by simp [hk]),
          List.find?_cons_of_neg _ (by simp [hp]),
          List.find?_cons_of_neg _ (by simp [hp]), ih]

theorem StyleMap.get_insert (m : StyleMap) (k p : DeclarationProperty)
    (v : DeclarationValue) :
    (m.insert k v).get p = if p = k then some v else m.get p := by
  by_cases h : p = k
  · rw [if_pos h]
    simp only [StyleMap.insert, StyleMap.get]
    rw [List.find?_cons_of_pos _ (by simp [h.symm])]
    rfl
  · rw [if_neg h]
    simp only [StyleMap.insert, StyleMap.get]
    rw [List.find?_cons_of_neg _ (by simpa using fun e => h e.symm),
      find?_filter_ne m k p h]

theorem lastValueOf_nil (p : DeclarationProperty) : lastValueOf p [] = none := rfl

theorem lastValueOf_append (p : DeclarationProperty) (x y : List Declaration) :
    lastValueOf p (x ++ y) = (lastValueOf p y).or (lastValueOf p x) := by
  simp only [lastValueOf, List.reverse_append, List.find?_append]
  cases List.find? (fun d => decide (d.property = p)) y.reverse <;> simp

theorem get_foldl_insert (l : List Declaration) (m : StyleMap)
    (p : DeclarationProperty) :
    (l.foldl (fun st d => st.insert d.property d.value) m).get p =
      (lastValueOf p l).or (m.get p) := by
  induction l generalizing m with
  | nil => simp [lastValueOf]
  | cons d t ih =>
    rw [List.foldl_cons, ih, StyleMap.get_insert]
    have hsplit : lastValueOf p (d :: t) =
        (lastValueOf p t).or (lastValueOf p [d]) := by
      have hx := lastValueOf_append p [d] t
      rw [List.singleton_append] at hx
      exact hx
    rw [hsplit]
    by_cases hp : p = d.property
    · have hd : lastValueOf p [d] = some d.value := by
        simp only [lastValueOf, List.reverse_singleton]
        rw [List.find?_cons_of_pos _ (by simp [hp.symm])]
        rfl
      rw [hd, if_pos hp]
      cases lastValueOf p t <;> simp
    · have hd : lastValueOf p [d] = none := by
        simp only [lastValueOf, List.reverse_singleton]
        rw [List.find?_cons_of_neg _ (by simpa using fun e => hp e.symm)]
        rfl
      rw [hd, if_neg hp]
      cases lastValueOf p t <;> simp

theorem get_styles_foldl (rules : List Rule) (element : Element) (m : StyleMap)
    (p : DeclarationProperty) :
    (rules.foldl
        (fun styles rule =>
          if rule.selectors.any (fun selector => selector.matches element) then
            rule.declarations.foldl
              (fun styles declaration =>
                styles.insert declaration.property declaration.value)
              styles
          else styles)
        m).get p =
      (lastValueOf p
          ((rules.filter
              (fun rule => rule.selectors.any (fun s => s.matches element))).flatMap
            (·.declarations))).or
        (m.get p) := by
  induction rules generalizing m with
  | nil => simp [lastValueOf]
  | cons r t ih =>
    rw [List.foldl_cons, ih]
    by_cases hr : r.selectors.any (fun s => s.matches element) = true
    · have hfil :
          List.filter (fun rule => rule.selectors.any fun s => s.matches element)
              (r :: t) =
            r :: List.filter
              (fun rule => rule.selectors.any fun s => s.matches element) t := by
        simp [List.filter_cons, hr]
      rw [if_pos hr, get_foldl_insert, hfil, List.flatMap_cons,
        lastValueOf_append, Option.or_assoc]
    · have hfil :
          List.filter (fun rule => rule.selectors.any fun s => s.matches element)
              (r :: t) =
            List.filter
              (fun rule => rule.selectors.any fun s => s.matches element) t := by
        simp [List.filter_cons, hr]
      rw [if_neg hr, hfil]

theorem get_styles_eq_lastValueOf (sheet : StyleSheet) (element : Element)
    (p : DeclarationProperty) :
    StyleMap.get (sheet.get_styles element) p =
      lastValueOf p (matchingDeclarations sheet element) := by
  rw [StyleSheet.get_styles, matchingDeclarations, get_styles_foldl]
  simp [StyleMap.new, StyleMap.get]

/-! ## Lemmas about the render-tree builder -/

theorem buildChildren_eq_filterMap (l : List Node) (sheet : StyleSheet) :
    RenderObject.buildChildren l sheet =
      l.filterMap (fun c => RenderObject.build c sheet) := by
  induction l with
  | nil => rfl
  | cons c rest ih =>
    cases hb : RenderObject.build c sheet with
    | none => simp [RenderObject.buildChildren, List.filterMap_cons, hb, ih]
    | some r => simp [RenderObject.buildChildren, List.filterMap_cons, hb, ih]

theorem build_element_eq (t : ElementTagName) (a : List (NodeKey × String))
    (c : List Node) (sheet : StyleSheet) :
    RenderObject.build (.Element (.mk t a c)) sheet =
      if t = .Meta ∨ t = .Script then none
      else if StyleMap.get (sheet.get_styles (.mk t a c)) .Display =
          some (.Display .None) then none
      else some (.mk (.Element (.mk t a c)) (sheet.get_styles (.mk t a c))
          (RenderObject.buildChildren c sheet)) := rfl

/-! ## Lemmas about the shorthand length loop -/

theorem lengthsLoop_head_semi :
    ∀ (fuel : ℕ) (s : List Char) (acc vs : List Length) (rest : List Char),
      lengthsLoop fuel s acc = some (vs, rest) → rest.head? = some ';' := by
  intro fuel
  induction fuel with
  | zero =>
    intro s acc vs rest h
    simp [lengthsLoop] at h
  | succ n ih =>
    intro s acc vs rest h
    rw [lengthsLoop] at h
    split at h
    · -- peek saw a character
      rename_i c hh
      split at h
      · -- a digit: an actual length is parsed and the loop continues
        split at h
        · exact ih _ _ _ _ h
        · exact absurd h (by simp)
      · split at h
        · -- the `;` break: the cursor is left on the `;`
          rename_i hc
          have hrest : rest = skip_whitespace s := by
            simpa using congrArg (fun o => o.map Prod.snd) h.symm
          rw [hrest, hh, hc]
        · -- any other character: an identifier is consumed, `Auto` pushed
          rcases hci : consume_identifier (skip_whitespace s) with ⟨w, s2⟩
          rw [hci] at h
          exact ih _ _ _ _ h
    · exact absurd h (by simp)

theorem parse_declaration_lengths_eq (fuel : ℕ) (cs : List Char)
    (vs : List Length) (rest : List Char)
    (h : lengthsLoop fuel cs [] = some (vs, rest)) :
    parse_declaration_lengths fuel cs =
      (match vs with
        | [t] => some ((t, t, t, t), rest.drop 1)
        | [t, r] => some ((t, r, t, r), rest.drop 1)
        | [t, r, b] => some ((t, r, b, r), rest.drop 1)
        | [t, r, b, l] => some ((t, r, b, l), rest.drop 1)
        | _ => none) := by
  have hsemi := lengthsLoop_head_semi fuel cs [] vs rest h
  cases rest with
  | nil => simp at hsemi
  | cons r0 rt =>
    have hr0 : r0 = ';' := by simpa using hsemi
    subst hr0
    rw [parse_declaration_lengths]
    simp only [h, skip_next_ch, if_pos]
    cases vs with
    | nil => rfl
    | cons v1 vt =>
      cases vt with
      | nil => rfl
      | cons v2 vt2 =>
        cases vt2 with
        | nil => rfl
        | cons v3 vt3 =>
          cases vt3 with
          | nil => rfl
          | cons v4 vt4 => cases vt4 <;> rfl

/-! ## The claims -/

/-- C3: for every element and all selectors `a`, `b`, the structural
combinator selectors `Child(a, b)` and `Adjacent(a, b)` are never matched
against any element — `Selector::matches` sends both to the catch-all arm and
returns `false` regardless of the element's ancestors or siblings. -/
theorem c3_combinators_never_match (a b : Selector) (e : Element) :
    Selector.matches (.Child a b) e = false ∧
      Selector.matches (.Adjacent a b) e = false :=
  ⟨rfl, rfl⟩

/-- C5: a compound selector `Class(Some(left), c)` (resp. `Id(Some(left), id)`)
matches an element exactly when `left` matches that same element and the
element's own class (resp. id) attribute (absent read as `""`) equals the
name — a same-element conjunction; in particular `div.box` matches a `div`
with class `box` and not a `span` with class `box`. -/
theorem c5_compound_conjunction (e : Element) (l : Selector) (c i : String) :
    Selector.matches (.Class (some l) c) e =
        (Selector.matches l e && decide (c = e.get_classes.getD "")) ∧
      Selector.matches (.Id (some l) i) e =
        (Selector.matches l e && decide (i = e.get_id.getD "")) ∧
      Selector.matches (.Class (some (.Tag .Div)) "box")
        (Element.mk .Div [(NodeKey.Class, "box")] []) = true ∧
      Selector.matches (.Class (some (.Tag .Div)) "box")
        (Element.mk (.Other "span") [(NodeKey.Class, "box")] []) = false :=
  ⟨rfl, rfl, by decide, by decide⟩

/-- C6: selector combinators are right-associative — `head > div > p` parses
to `Child(Tag(head), Child(Tag(div), Tag(p)))` (and not to the
left-associated nesting), and chained `+` likewise yields right-nested
`Adjacent` nodes. -/
theorem c6_selector_right_assoc :
    parse_one_selector 100 ("head > div > p".toList) =
        some (.Child (.Tag .Head) (.Child (.Tag .Div) (.Tag .P)), []) ∧
      (Selector.Child (.Tag .Head) (.Child (.Tag .Div) (.Tag .P)) =
          Selector.Child (.Child (.Tag .Head) (.Tag .Div)) (.Tag .P) → False) ∧
      parse_one_selector 100 ("h1 + h2 + h3".toList) =
        some (.Adjacent (.Tag .H1) (.Adjacent (.Tag .H2) (.Tag .H3)), []) :=
  ⟨by rfl, by intro h; injection h with h1 h2; exact Selector.noConfusion h1,
    by rfl⟩

/-- C7: a color value is parsed as `#`, two hex digits each for r, g, b, and
an optional fourth two-hex-digit alpha defaulting to `0` when absent or not
hexadecimal: `#aa11ff22` gives `Color{r:0xaa,g:0x11,b:0xff,a:0x22}`,
`#aa11ff` gives alpha `0`, and a non-hex trailer such as `#aa11ffzz` also
gives alpha `0`. -/
theorem c7_color_parsing :
    parse_declaration_color .Color ("#aa11ff22;".toList) =
        (Declaration.new .Color (.Color (Color.new 0xaa 0x11 0xff 0x22)), [';']) ∧
      parse_declaration_color .Color ("#aa11ff;".toList) =
        (Declaration.new .Color (.Color (Color.new 0xaa 0x11 0xff 0)), [';']) ∧
      parse_declaration_color .BackgroundColor ("#aa11ffzz;".toList) =
        (Declaration.new .BackgroundColor (.Color (Color.new 0xaa 0x11 0xff 0)),
          ['z', 'z', ';']) :=
  ⟨by decide, by decide, by decide⟩

/-- C8 counterexample: the claim predicts that two consecutive newlines inside
a text run collapse to a single space, but `consume_text` on
`"Hello\n\nWorld<"` yields `"Hello  World"` — two spaces, one per newline —
which differs from the predicted `"Hello World"`. -/
theorem c8_counterexample :
    (consume_text ("Hello\n\nWorld<".toList)).1 = "Hello  World" ∧
      (("Hello  World" : String) = "Hello World" → False) :=
  ⟨by decide, by decide⟩

/-- C8 amended: inside a text run, trailing whitespace is trimmed and each
newline is replaced by one space, but consecutive whitespace is NOT collapsed:
a single newline yields one space, two consecutive newlines yield two spaces,
and no newline survives in the produced text. -/
theorem c8_amended_newline_replacement :
    (consume_text ("Hello\nWorld<".toList)).1 = "Hello World" ∧
      (consume_text ("Hello\n\nWorld<".toList)).1 = "Hello  World" ∧
      (consume_text ("Hi \n<".toList)).1 = "Hi" ∧
      ∀ s : List Char, (((consume_text s).1).data.contains '\n') = false := by
  refine ⟨by decide, by decide, by decide, ?_⟩
  intro s
  rw [List.contains_eq_any_beq]
  rw [List.any_eq_false]
  intro c hc
  simp only [consume_text] at hc
  obtain ⟨c0, _, hc0⟩ := List.mem_map.mp hc
  by_cases h0 : c0 = '\n'
  · rw [if_pos h0] at hc0
    rw [← hc0]
    decide
  · rw [if_neg h0] at hc0
    rw [← hc0]
    simpa using fun e => h0 e.symm

/-- C9 counterexample: the claim predicts that an element with no class (id)
attribute does not match the bare empty selector `Class(None, "")`
(`Id(None, "")`); in the code the absent attribute is defaulted to `""`,
which equals the empty selector name, so a plain `<div>` DOES match both. -/
theorem c9_counterexample :
    (Element.mk .Div [] []).get_classes = none ∧
      Selector.matches (.Class none "") (Element.mk .Div [] []) = true ∧
      (Element.mk .Div [] []).get_id = none ∧
      Selector.matches (.Id none "") (Element.mk .Div [] []) = true := by
  refine ⟨by decide, by decide, by decide, by decide⟩

/-- C9 amended: matching treats an absent `class`/`id` attribute as the empty
string, so an element with no class attribute matches `Class(None, c)` exactly
when `c = ""` — in particular it DOES match `Class(None, "")` — and
symmetrically for `Id`. -/
theorem c9_empty_class_matches (e : Element) (c i : String) :
    (e.get_classes = none → Selector.matches (.Class none c) e = decide (c = "")) ∧
      (e.get_id = none → Selector.matches (.Id none i) e = decide (i = "")) := by
  constructor
  · intro h
    show decide (c = e.get_classes.getD "") = decide (c = "")
    rw [h]
    rfl
  · intro h
    show decide (i = e.get_id.getD "") = decide (i = "")
    rw [h]
    rfl

/-- C9 witness: the amended statement applied to a plain `<div>` with the
empty class name and a nonempty id name. -/
theorem c9_empty_class_matches_witness :
    Selector.matches (.Class none "") (Element.mk .Div [] []) = decide ("" = "") ∧
      Selector.matches (.Id none "book") (Element.mk .Div [] []) =
        decide ("book" = "") :=
  ⟨(c9_empty_class_matches (Element.mk .Div [] []) "" "book").1 rfl,
    (c9_empty_class_matches (Element.mk .Div [] []) "" "book").2 rfl⟩

/-- C4: a shorthand margin or padding declaration whose value loop collects
`k` length values (1 ≤ k ≤ 4) expands, in place of the shorthand, to exactly
four directional declarations in the order top, right, bottom, left, with
sides assigned per the CSS shorthand rules: 1 value → all four sides;
2 → top=bottom=first, left=right=second; 3 → top=first, left=right=second,
bottom=third; 4 → top, right, bottom, left in order. -/
theorem c4_shorthand_expansion (fuel : ℕ) (cs rest : List Char)
    (a b c d : Length) :
    (lengthsLoop fuel cs [] = some ([a], rest) →
        parse_declaration_margin fuel cs =
          some ([Declaration.new .MarginTop (.Length a),
                 Declaration.new .MarginRight (.Length a),
                 Declaration.new .MarginBottom (.Length a),
                 Declaration.new .MarginLeft (.Length a)], rest.drop 1) ∧
        parse_declaration_padding fuel cs =
          some ([Declaration.new .PaddingTop (.Length a),
                 Declaration.new .PaddingRight (.Length a),
                 Declaration.new .PaddingBottom (.Length a),
                 Declaration.new .PaddingLeft (.Length a)], rest.drop 1)) ∧
      (lengthsLoop fuel cs [] = some ([a, b], rest) →
        parse_declaration_margin fuel cs =
          some ([Declaration.new .MarginTop (.Length a),
                 Declaration.new .MarginRight (.Length b),
                 Declaration.new .MarginBottom (.Length a),
                 Declaration.new .MarginLeft (.Length b)], rest.drop 1)) ∧
      (lengthsLoop fuel cs [] = some ([a, b, c], rest) →
        parse_declaration_margin fuel cs =
          some ([Declaration.new .MarginTop (.Length a),
                 Declaration.new .MarginRight (.Length b),
                 Declaration.new .MarginBottom (.Length c),
                 Declaration.new .MarginLeft (.Length b)], rest.drop 1)) ∧
      (lengthsLoop fuel cs [] = some ([a, b, c, d], rest) →
        parse_declaration_margin fuel cs =
          some ([Declaration.new .MarginTop (.Length a),
                 Declaration.new .MarginRight (.Length b),
                 Declaration.new .MarginBottom (.Length c),
                 Declaration.new .MarginLeft (.Length d)], rest.drop 1) ∧
        parse_declaration_padding fuel cs =
          some ([Declaration.new .PaddingTop (.Length a),
                 Declaration.new .PaddingRight (.Length b),
                 Declaration.new .PaddingBottom (.Length c),
                 Declaration.new .PaddingLeft (.Length d)], rest.drop 1)) := by
  refine ⟨fun h => ?_, fun h => ?_, fun h => ?_, fun h => ?_⟩
  · have hl := parse_declaration_lengths_eq fuel cs [a] rest h
    exact ⟨by rw [parse_declaration_margin, hl],
      by rw [parse_declaration_padding, hl]⟩
  · have hl := parse_declaration_lengths_eq fuel cs [a, b] rest h
    rw [parse_declaration_margin, hl]
  · have hl := parse_declaration_lengths_eq fuel cs [a, b, c] rest h
    rw [parse_declaration_margin, hl]
  · have hl := parse_declaration_lengths_eq fuel cs [a, b, c, d] rest h
    exact ⟨by rw [parse_declaration_margin, hl],
      by rw [parse_declaration_padding, hl]⟩

/-- C4 witness: the spec's own examples — `margin: 10px;` gives all four
sides `Actual(10, Px)`, and `margin: 1em 2px 3em 4px;` gives top=1em,
right=2px, bottom=3em, left=4px (padding likewise). -/
theorem c4_shorthand_expansion_witness :
    (parse_declaration_margin 10 ("10px;".toList) =
        some ([Declaration.new .MarginTop (.Length (.Actual 10 .Px)),
               Declaration.new .MarginRight (.Length (.Actual 10 .Px)),
               Declaration.new .MarginBottom (.Length (.Actual 10 .Px)),
               Declaration.new .MarginLeft (.Length (.Actual 10 .Px))], []) ∧
      parse_declaration_padding 10 ("10px;".toList) =
        some ([Declaration.new .PaddingTop (.Length (.Actual 10 .Px)),
               Declaration.new .PaddingRight (.Length (.Actual 10 .Px)),
               Declaration.new .PaddingBottom (.Length (.Actual 10 .Px)),
               Declaration.new .PaddingLeft (.Length (.Actual 10 .Px))], [])) ∧
      parse_declaration_margin 20 ("1em 2px 3em 4px;".toList) =
        some ([Declaration.new .MarginTop (.Length (.Actual 1 .Em)),
               Declaration.new .MarginRight (.Length (.Actual 2 .Px)),
               Declaration.new .MarginBottom (.Length (.Actual 3 .Em)),
               Declaration.new .MarginLeft (.Length (.Actual 4 .Px))], []) :=
  ⟨(c4_shorthand_expansion 10 ("10px;".toList) [';']
      (.Actual 10 .Px) .Auto .Auto .Auto).1 (by decide),
    ((c4_shorthand_expansion 20 ("1em 2px 3em 4px;".toList) [';']
      (.Actual 1 .Em) (.Actual 2 .Px) (.Actual 3 .Em) (.Actual 4 .Px)).2.2.2
      (by decide)).1⟩

/-- C1: `get_styles` resolves a property to the value of the last declaration
among the rules (taken in stylesheet order) with at least one selector
matching the element; every declared property of every matching rule is
present in the result; and for a stylesheet of two matching rules both
declaring `P`, the resolved value is the second rule's — last-applied-wins,
with no specificity weighting. -/
theorem c1_cascade_last_wins :
    (∀ (sheet : StyleSheet) (element : Element) (p : DeclarationProperty),
        StyleMap.get (sheet.get_styles element) p =
          lastValueOf p (matchingDeclarations sheet element)) ∧
      (∀ (sheet : StyleSheet) (element : Element) (rule : Rule)
          (d : Declaration),
          rule ∈ sheet.rules →
          rule.selectors.any (fun s => s.matches element) = true →
          d ∈ rule.declarations →
          (StyleMap.get (sheet.get_styles element) d.property).isSome = true) ∧
      (∀ (element : Element) (r1 r2 : Rule) (p : DeclarationProperty)
          (v2 : DeclarationValue),
          r1.selectors.any (fun s => s.matches element) = true →
          r2.selectors.any (fun s => s.matches element) = true →
          (∃ d1 ∈ r1.declarations, d1.property = p) →
          lastValueOf p r2.declarations = some v2 →
          StyleMap.get ((StyleSheet.mk [r1, r2]).get_styles element) p =
            some v2) := by
  refine ⟨get_styles_eq_lastValueOf, ?_, ?_⟩
  · intro sheet element rule d hrule hany hd
    have hfind : (List.find? (fun d1 => decide (d1.property = d.property))
        (matchingDeclarations sheet element).reverse).isSome = true := by
      rw [List.find?_isSome]
      refine ⟨d, ?_, by simp⟩
      rw [List.mem_reverse, matchingDeclarations, List.mem_flatMap]
      exact ⟨rule, List.mem_filter.mpr ⟨hrule, hany⟩, hd⟩
    obtain ⟨d2, hd2⟩ := Option.isSome_iff_exists.mp hfind
    rw [get_styles_eq_lastValueOf, lastValueOf, hd2]
    rfl
  · intro element r1 r2 p v2 h1 h2 _ hlast
    rw [get_styles_eq_lastValueOf]
    have hm : matchingDeclarations (StyleSheet.mk [r1, r2]) element =
        r1.declarations ++ r2.declarations := by
      rw [matchingDeclarations]
      rw [show (StyleSheet.mk [r1, r2]).rules = [r1, r2] from rfl]
      simp only [List.filter]
      rw [h1, h2]
      simp
    rw [hm, lastValueOf_append, hlast]
    rfl

/-- C1 witness: two rules — `div { width: 10px }` then `.note { width: 20px }`
— both matching `<div class="note">`; the resolved width is the second
rule's `20px`. -/
theorem c1_cascade_last_wins_witness :
    StyleMap.get
        ((StyleSheet.mk
            [Rule.new [.Tag .Div]
               [Declaration.new .Width (.Length (.Actual 10 .Px))],
             Rule.new [.Class none "note"]
               [Declaration.new .Width (.Length (.Actual 20 .Px))]]).get_styles
          (Element.mk .Div [(NodeKey.Class, "note")] []))
        .Width =
      some (.Length (.Actual 20 .Px)) :=
  c1_cascade_last_wins.2.2 (Element.mk .Div [(NodeKey.Class, "note")] [])
    (Rule.new [.Tag .Div] [Declaration.new .Width (.Length (.Actual 10 .Px))])
    (Rule.new [.Class none "note"]
      [Declaration.new .Width (.Length (.Actual 20 .Px))])
    .Width (.Length (.Actual 20 .Px))
    (by decide) (by decide)
    ⟨Declaration.new .Width (.Length (.Actual 10 .Px)),
      List.mem_singleton.mpr rfl, rfl⟩
    (by decide)

/-- C2: `RenderObject::build` returns nothing exactly when the node is an
element whose tag is `meta` or `script` or whose resolved style map gives
`display` the value `None` (in which case no render object exists for the node
or its subtree), and otherwise returns a render object whose children are the
successful recursive builds of the node's children, in order. -/
theorem c2_build_pruning (node : Node) (sheet : StyleSheet) :
    (RenderObject.build node sheet = none ↔
        ∃ e, node = Node.Element e ∧
          (e.tag_name = .Meta ∨ e.tag_name = .Script ∨
            StyleMap.get (sheet.get_styles e) .Display =
              some (.Display .None))) ∧
      (∀ r, RenderObject.build node sheet = some r →
        r.children =
          (Node.nodeChildren node).filterMap
            (fun ch => RenderObject.build ch sheet)) := by
  cases node with
  | Element e =>
    obtain ⟨t, a, c⟩ := e
    rw [build_element_eq]
    by_cases hts : t = ElementTagName.Meta ∨ t = ElementTagName.Script
    · rw [if_pos hts]
      refine ⟨⟨fun _ => ⟨.mk t a c, rfl, ?_⟩, fun _ => rfl⟩, ?_⟩
      · rcases hts with h | h
        · exact Or.inl (by simpa [Element.tag_name] using h)
        · exact Or.inr (Or.inl (by simpa [Element.tag_name] using h))
      · intro r hr
        exact absurd hr (by simp)
    · rw [if_neg hts]
      by_cases hd : StyleMap.get (sheet.get_styles (.mk t a c)) .Display =
          some (.Display .None)
      · rw [if_pos hd]
        exact ⟨⟨fun _ => ⟨.mk t a c, rfl, Or.inr (Or.inr hd)⟩, fun _ => rfl⟩,
          fun r hr => absurd hr (by simp)⟩
      · rw [if_neg hd]
        constructor
        · constructor
          · intro hsome
            exact absurd hsome (by simp)
          · rintro ⟨e2, heq, hcond⟩
            have he2 : e2 = Element.mk t a c := by
              injection heq with hx
              exact hx.symm
            subst he2
            rcases hcond with h | h | h
            · exact absurd (Or.inl (by simpa [Element.tag_name] using h)) hts
            · exact absurd (Or.inr (by simpa [Element.tag_name] using h)) hts
            · exact absurd h hd
        · intro r hr
          have hr2 : r = RenderObject.mk (Node.Element (.mk t a c))
              (sheet.get_styles (.mk t a c))
              (RenderObject.buildChildren c sheet) := by
            injection hr with hx
            exact hx.symm
          subst hr2
          simp [RenderObject.children, Node.nodeChildren, Element.children,
            buildChildren_eq_filterMap]
  | Text s =>
    refine ⟨⟨fun h => absurd h (by simp [RenderObject.build]), ?_⟩, ?_⟩
    · rintro ⟨e, heq, _⟩
      exact Node.noConfusion heq
    · intro r hr
      have hr2 : r = RenderObject.mk (Node.Text s) StyleMap.new [] := by
        have hx : some (RenderObject.mk (Node.Text s) StyleMap.new []) =
            some r := hr
        injection hx with hy
        exact hy.symm
      subst hr2
      rfl
  | Comment s =>
    refine ⟨⟨fun h => absurd h (by simp [RenderObject.build]), ?_⟩, ?_⟩
    · rintro ⟨e, heq, _⟩
      exact Node.noConfusion heq
    · intro r hr
      have hr2 : r = RenderObject.mk (Node.Comment s) StyleMap.new [] := by
        have hx : some (RenderObject.mk (Node.Comment s) StyleMap.new []) =
            some r := hr
        injection hx with hy
        exact hy.symm
      subst hr2
      rfl
  | EndTag =>
    refine ⟨⟨fun h => absurd h (by simp [RenderObject.build]), ?_⟩, ?_⟩
    · rintro ⟨e, heq, _⟩
      exact Node.noConfusion heq
    · intro r hr
      have hr2 : r = RenderObject.mk Node.EndTag StyleMap.new [] := by
        have hx : some (RenderObject.mk Node.EndTag StyleMap.new []) =
            some r := hr
        injection hx with hy
        exact hy.symm
      subst hr2
      rfl

/-- C2 witness: the spec's pruning example — DOM `<div><p>x</p></div>` with
CSS `div { display: none; }` builds to nothing — and a text node builds to an
object whose children are the (empty) successful builds of its children. -/
theorem c2_build_pruning_witness :
    RenderObject.build
        (Node.Element (.mk .Div []
          [Node.Element (.mk .P [] [Node.Text "x"])]))
        (StyleSheet.mk
          [Rule.new [.Tag .Div] [Declaration.new .Display (.Display .None)]]) =
      none ∧
      (RenderObject.mk (Node.Text "x") StyleMap.new []).children =
        (Node.nodeChildren (Node.Text "x")).filterMap
          (fun ch => RenderObject.build ch (StyleSheet.mk [])) :=
  ⟨(c2_build_pruning
      (Node.Element (.mk .Div [] [Node.Element (.mk .P [] [Node.Text "x"])]))
      (StyleSheet.mk
        [Rule.new [.Tag .Div] [Declaration.new .Display (.Display .None)]])).1.mpr
      ⟨.mk .Div [] [Node.Element (.mk .P [] [Node.Text "x"])], rfl,
        Or.inr (Or.inr (by decide))⟩,
    (c2_build_pruning (Node.Text "x") (StyleSheet.mk [])).2
      (RenderObject.mk (Node.Text "x") StyleMap.new []) rfl⟩

/-- C10: `RenderObject::new` is `build(...).unwrap()` — it returns the same
render tree as `build` whenever `build` returns a result, and panics (here:
`Except.error`) exactly when `build` returns nothing, e.g. on a `meta` or
`script` element; the public entry point signals no `None` to callers. -/
theorem c10_new_unwraps_build (node : Node) (sheet : StyleSheet) :
    (∀ r, RenderObject.build node sheet = some r →
        RenderObject.new node sheet = .ok r) ∧
      (RenderObject.build node sheet = none ↔
        RenderObject.new node sheet = .error "called unwrap on a None value") := by
  refine ⟨?_, ?_, ?_⟩
  · intro r hr
    rw [RenderObject.new, hr]
  · intro h
    rw [RenderObject.new, h]
  · intro h
    cases hb : RenderObject.build node sheet with
    | none => rfl
    | some r0 =>
      rw [RenderObject.new, hb] at h
      exact Except.noConfusion h

/-- C10 witness: `new` on a `meta` element fails with the unwrap panic, and
`new` on a text node returns exactly what `build` returns. -/
theorem c10_new_unwraps_build_witness :
    RenderObject.new (Node.Element (.mk .Meta [] [])) (StyleSheet.mk []) =
        .error "called unwrap on a None value" ∧
      RenderObject.new (Node.Text "x") (StyleSheet.mk []) =
        .ok (RenderObject.mk (Node.Text "x") StyleMap.new []) :=
  ⟨(c10_new_unwraps_build (Node.Element (.mk .Meta [] []))
      (StyleSheet.mk [])).2.mp rfl,
    (c10_new_unwraps_build (Node.Text "x") (StyleSheet.mk [])).1
      (RenderObject.mk (Node.Text "x") StyleMap.new []) rfl⟩

end ToyBrowser
